import Mathlib

/-!
Verification of the Resume_Optimizer scoring and structural-analysis engine.

This file is a shallow embedding of the Python sources under `backend/`:
`ats_calculator.py`, `suggest_skills.py`, `restructure_advice.py`, and the
`_normalize` helper from `parser.py`.  Pure Python string manipulation is
translated to executable Lean functions on `List Char` / `String`; Python
floats are modelled as rationals (`ℚ`); Python `set` objects as
`Finset String`; dictionaries holding content elements as a structure with
the fields the code reads.  The external NLP collaborators (spaCy, SkillNER,
scikit-learn's TF-IDF) are modelled as an oracle record of deterministic
functions, with all of the repository's own post-processing of their output
(cleaning, thresholding, exception fallbacks) translated faithfully.  The
handful of regular expressions in the sources are compiled by hand into
executable matchers; each matcher's doc comment records the pattern and the
`re.search`/`re.finditer` semantics it implements (existence of a match /
leftmost non-overlapping matches with greedy backtracking).
-/

/-! ## Character and string utilities (Python `str` semantics, ASCII ranges) -/

/-- Python whitespace characters recognised by `str.split()`, `str.strip()`
and the regex class `\s` (ASCII part: space, tab, LF, CR, VT, FF). -/
def isWsChar (c : Char) : Bool :=
  c = ' ' || c = '\t' || c = '\n' || c = '\r' || c.toNat = 11 || c.toNat = 12

/-- ASCII alphanumeric or underscore: the regex class `\w` (ASCII part),
matching Python's `\w` on the ASCII inputs the engine handles. -/
def wordChar (c : Char) : Bool :=
  c.isAlpha || c.isDigit || c = '_'

/-- Lowercasing of a single character, ASCII range (Python `str.lower`). -/
def toLowerChar (c : Char) : Char :=
  if 65 ≤ c.toNat ∧ c.toNat ≤ 90 then Char.ofNat (c.toNat + 32) else c

/-- Lowercase an entire string (Python `str.lower`, ASCII range). -/
def toLowerS (s : String) : String :=
  String.mk (s.data.map toLowerChar)

/-- Strip Python-style whitespace from both ends of a character list. -/
def stripL (l : List Char) : List Char :=
  ((l.dropWhile isWsChar).reverse.dropWhile isWsChar).reverse

/-- Python `str.strip()` on strings. -/
def pyStrip (s : String) : String :=
  String.mk (stripL s.data)

/-- Helper for whitespace splitting: accumulates the current token
(reversed) while scanning. -/
def splitWsGo : List Char → List Char → List (List Char)
  | acc, [] => if acc.isEmpty then [] else [acc.reverse]
  | acc, c :: rest =>
    if isWsChar c then
      if acc.isEmpty then splitWsGo [] rest else acc.reverse :: splitWsGo [] rest
    else splitWsGo (c :: acc) rest

/-- Python `str.split()` with no separator: split on whitespace runs,
discarding empty pieces. -/
def pySplitWs (s : String) : List String :=
  (splitWsGo [] s.data).map String.mk

/-- Collapse runs of spaces to a single space (used by `_normalize` after
mapping every whitespace character to a space). -/
def squeezeSp : List Char → List Char
  | [] => []
  | [c] => [c]
  | a :: b :: rest =>
    if a = ' ' && b = ' ' then squeezeSp (b :: rest) else a :: squeezeSp (b :: rest)

/-- Translation of `parser._normalize`: lowercase, collapse each whitespace
run to a single space (`re.sub(r"\s+", " ", t)`), and strip. -/
def pyNormalize (s : String) : String :=
  pyStrip (String.mk (squeezeSp ((toLowerS s).data.map
    (fun c => if isWsChar c then ' ' else c))))

/-- Does `pre` occur as the leading segment of `l`? -/
def leadEq : List Char → List Char → Bool
  | [], _ => true
  | _ :: _, [] => false
  | a :: as, b :: bs => a = b && leadEq as bs

/-- Substring containment on character lists (Python `needle in hay`;
the empty needle is contained in everything, as in Python). -/
def subL (needle : List Char) : List Char → Bool
  | [] => needle.isEmpty
  | c :: rest => leadEq needle (c :: rest) || subL needle rest

/-- Substring containment on strings (Python `in`). -/
def subS (needle hay : String) : Bool :=
  subL needle.data hay.data

/-- Case-insensitive leading-segment comparison: `pre` is given lowercase,
`l` is lowercased character by character before comparing. -/
def leadEqCi : List Char → List Char → Bool
  | [], _ => true
  | _ :: _, [] => false
  | a :: as, b :: bs => a = toLowerChar b && leadEqCi as bs

/-- Count of non-overlapping occurrences of `needle` in the list, scanning
left to right (Python `str.count`); `fuel` bounds the recursion and is
instantiated with the haystack length. -/
def countOccGo (needle : List Char) : Nat → List Char → Nat
  | 0, _ => 0
  | _ + 1, [] => 0
  | fuel + 1, c :: rest =>
    if leadEq needle (c :: rest) then
      1 + countOccGo needle fuel ((c :: rest).drop needle.length)
    else
      countOccGo needle fuel rest

/-- Python `hay.count(needle)` (for the empty needle Python returns
`len + 1`, reproduced here). -/
def countOcc (needle hay : String) : Nat :=
  if needle.data.isEmpty then hay.data.length + 1
  else countOccGo needle.data hay.data.length hay.data

/-- ASCII uppercase-letter test (Python `str.isupper` on a single
character, ASCII range). -/
def upperA (c : Char) : Bool :=
  decide (65 ≤ c.toNat) && decide (c.toNat ≤ 90)

/-- First character of a string is an (ASCII) uppercase letter
(Python `s[0].isupper()` guarded by non-emptiness). -/
def startsUpper (s : String) : Bool :=
  match s.data with
  | [] => false
  | c :: _ => upperA c

/-- Python's `round` on a rational: round half to even (banker's rounding),
as applied to the final score `int(round(final * 100))`. -/
def pyRound (q : ℚ) : ℤ :=
  let f := ⌊q⌋
  let r := q - f
  if r < 1/2 then f
  else if 1/2 < r then f + 1
  else if f % 2 = 0 then f else f + 1

/-! ## Hand-compiled regular-expression matchers

Each matcher decides whether `re.search` would find a match (existence of a
decomposition of some substring into the pattern's pieces, which coincides
with backtracking-regex search for these purely regular patterns).  Word
boundaries `\b` are the usual "exactly one side is a `\w` character" test. -/

/-- Word-boundary test between an optional preceding character and the
character starting a candidate match. -/
def atBoundary (before : Option Char) (c : Char) : Bool :=
  wordChar c != (match before with | none => false | some b => wordChar b)

/-- Character class `[A-Za-z0-9._%+-]` (local part of both email patterns). -/
def emailLocalCh (c : Char) : Bool :=
  c.isAlpha || c.isDigit || c = '.' || c = '_' || c = '%' || c = '+' || c = '-'

/-- Character class `[\w.-]` (domain part, `ats_calculator` email pattern). -/
def emailDomChAts (c : Char) : Bool :=
  wordChar c || c = '.' || c = '-'

/-- Character class `[A-Za-z0-9.-]` (domain part, `restructure_advice`
email pattern). -/
def emailDomChAdv (c : Char) : Bool :=
  c.isAlpha || c.isDigit || c = '.' || c = '-'

/-- Character class `[A-Za-z]` (TLD, `ats_calculator` email pattern). -/
def emailTldChAts (c : Char) : Bool :=
  c.isAlpha

/-- Character class `[A-Z|a-z]` (TLD, `restructure_advice` email pattern;
the `|` inside the class is a literal). -/
def emailTldChAdv (c : Char) : Bool :=
  c.isAlpha || c = '|'

/-- After at least two TLD characters: the match may end here if a word
boundary holds (next character not `\w`, or end of input), or extend by
another TLD character. -/
def emailTldTail (tld : Char → Bool) : List Char → Bool
  | [] => true
  | c :: rest => !wordChar c || (tld c && emailTldTail tld rest)

/-- `[...]{2,}\b` for the TLD class: at least two TLD characters followed by
a word boundary. -/
def emailTld2 (tld : Char → Bool) : List Char → Bool
  | c1 :: c2 :: rest => tld c1 && tld c2 && emailTldTail tld rest
  | _ => false

/-- After at least one domain character: either continue the domain run, or
consume the literal `.` and match the TLD. -/
def emailDomTail (dom tld : Char → Bool) : List Char → Bool
  | [] => false
  | c :: rest => (c = '.' && emailTld2 tld rest) || (dom c && emailDomTail dom tld rest)

/-- `[...]+\.[...]{2,}\b` for the domain and TLD classes. -/
def emailAfterAt (dom tld : Char → Bool) : List Char → Bool
  | [] => false
  | c :: rest => dom c && emailDomTail dom tld rest

/-- After at least one local-part character: either consume `@` and match
the domain, or continue the local-part run. -/
def emailLocalGo (dom tld : Char → Bool) : List Char → Bool
  | [] => false
  | c :: rest =>
    (c = '@' && emailAfterAt dom tld rest) || (emailLocalCh c && emailLocalGo dom tld rest)

/-- A full email match starting exactly at the head of `l`, with `before`
the character preceding that position (for the leading `\b`). -/
def emailHereOk (dom tld : Char → Bool) (before : Option Char) (l : List Char) : Bool :=
  match l with
  | [] => false
  | c :: rest => atBoundary before c && emailLocalCh c && emailLocalGo dom tld rest

/-- Search for an email match at any start position. -/
def emailSearchGo (dom tld : Char → Bool) : Option Char → List Char → Bool
  | _, [] => false
  | before, c :: rest =>
    emailHereOk dom tld before (c :: rest) || emailSearchGo dom tld (some c) rest

/-- `re.search` of `\b[A-Za-z0-9._%+-]+@[\w.-]+\.[A-Za-z]{2,}\b`
(`ats_calculator._check_disqualifiers` email test). -/
def emailHitAts (s : String) : Bool :=
  emailSearchGo emailDomChAts emailTldChAts none s.data

/-- `re.search` of `\b[A-Za-z0-9._%+-]+@[A-Za-z0-9.-]+\.[A-Z|a-z]{2,}\b`
(`restructure_advice.EMAIL_REGEX`; the `re.IGNORECASE` flag adds nothing
because every class already covers both cases). -/
def emailHitAdv (s : String) : Bool :=
  emailSearchGo emailDomChAdv emailTldChAdv none s.data

/-- Character class `[-.\s]` used as the optional separator in both phone
patterns. -/
def sepCls (c : Char) : Bool :=
  c = '-' || c = '.' || isWsChar c

/-- At least `n` leading digit characters (a `\d{n}` or `\d{n,m}` piece at
the end of an unanchored pattern only needs its minimum run). -/
def digitsAtLeast : Nat → List Char → Bool
  | 0, _ => true
  | _ + 1, [] => false
  | n + 1, c :: rest => c.isDigit && digitsAtLeast n rest

/-- `[-.\s]?\d{lastN...}`: the final separator and digit group. -/
def phoneStage4 (lastN : Nat) (l : List Char) : Bool :=
  digitsAtLeast lastN l ||
    (match l with
     | c :: rest => sepCls c && digitsAtLeast lastN rest
     | [] => false)

/-- `\d{3}` then the final stage. -/
def phoneStage3 (lastN : Nat) : List Char → Bool
  | a :: b :: c :: rest =>
    a.isDigit && b.isDigit && c.isDigit && phoneStage4 lastN rest
  | _ => false

/-- `[-.\s]?` then `\d{3}...`. -/
def phoneStage2 (lastN : Nat) (l : List Char) : Bool :=
  phoneStage3 lastN l ||
    (match l with
     | c :: rest => sepCls c && phoneStage3 lastN rest
     | [] => false)

/-- `\)?` then the middle stages. -/
def phoneStage1b (lastN : Nat) (l : List Char) : Bool :=
  phoneStage2 lastN l ||
    (match l with
     | ')' :: rest => phoneStage2 lastN rest
     | _ => false)

/-- The first digit group: between `mn` and `mx` digits (tried with full
backtracking), then `\)?[-.\s]?\d{3}[-.\s]?\d{lastN...}`. -/
def phoneD1 (lastN : Nat) : Nat → Nat → List Char → Bool
  | _, 0, _ => false
  | mn, mx + 1, l =>
    match l with
    | [] => false
    | c :: rest =>
      c.isDigit && ((mn ≤ 1 && phoneStage1b lastN rest) || phoneD1 lastN (mn - 1) mx rest)

/-- `\(?` then the first digit group. -/
def phoneB (lastN mn mx : Nat) (l : List Char) : Bool :=
  phoneD1 lastN mn mx l ||
    (match l with
     | '(' :: rest => phoneD1 lastN mn mx rest
     | _ => false)

/-- After `\+\d{1,3}`: the optional `[-.\s]?` then the main body. -/
def phoneAfterPlus (lastN mn mx : Nat) (l : List Char) : Bool :=
  phoneB lastN mn mx l ||
    (match l with
     | c :: rest => sepCls c && phoneB lastN mn mx rest
     | [] => false)

/-- `\d{1,3}` after the `+`, with backtracking over the digit count. -/
def phonePlusDigits (lastN mn mx : Nat) : Nat → List Char → Bool
  | 0, _ => false
  | k + 1, l =>
    match l with
    | [] => false
    | c :: rest =>
      c.isDigit && (phoneAfterPlus lastN mn mx rest || phonePlusDigits lastN mn mx k rest)

/-- A full phone match starting exactly at the head of `l` (the pattern has
no `\b`, so no boundary test). -/
def phoneHereOk (lastN mn mx : Nat) (l : List Char) : Bool :=
  phoneB lastN mn mx l ||
    (match l with
     | '+' :: rest => phonePlusDigits lastN mn mx 3 rest
     | _ => false)

/-- Search for a phone match at any start position. -/
def phoneSearchGo (lastN mn mx : Nat) : List Char → Bool
  | [] => false
  | c :: rest => phoneHereOk lastN mn mx (c :: rest) || phoneSearchGo lastN mn mx rest

/-- `re.search` of `(\+\d{1,3}[-.\s]?)?\(?\d{1,5}\)?[-.\s]?\d{3}[-.\s]?\d{3,5}`
(`ats_calculator._check_disqualifiers` phone test). -/
def phoneHitAts (s : String) : Bool :=
  phoneSearchGo 3 1 5 s.data

/-- `re.search` of `(\+\d{1,3}[-.\s]?)?\(?\d{3}\)?[-.\s]?\d{3}[-.\s]?\d{4}`
(`restructure_advice.PHONE_REGEX`). -/
def phoneHitAdv (s : String) : Bool :=
  phoneSearchGo 4 3 3 s.data

/-- Search for a literal followed by at least one `[\w-]` character (the
shape of both the LinkedIn and GitHub profile patterns). -/
def litThenWordDash (lit : List Char) : List Char → Bool
  | [] => false
  | c :: rest =>
    (leadEq lit (c :: rest) &&
      (match (c :: rest).drop lit.length with
       | d :: _ => wordChar d || d = '-'
       | [] => false)) || litThenWordDash lit rest

/-- `re.search` of `linkedin\.com/in/[\w-]+`. -/
def linkedinHit (s : String) : Bool :=
  litThenWordDash "linkedin.com/in/".data s.data

/-- `re.search` of `github\.com/[\w-]+`. -/
def githubHit (s : String) : Bool :=
  litThenWordDash "github.com/".data s.data

/-- `re.findall` of `(20\d{2}|19\d{2})`: left-to-right non-overlapping
four-character year tokens (no word boundaries, so digits inside longer
runs count, as in the source). -/
def yearScanGo : Nat → List Char → List Nat
  | 0, _ => []
  | _ + 1, [] => []
  | fuel + 1, a :: rest =>
    match rest with
    | b :: c :: d :: rest2 =>
      if ((a = '2' && b = '0') || (a = '1' && b = '9')) && c.isDigit && d.isDigit then
        (1000 * (a.toNat - 48) + 100 * (b.toNat - 48) + 10 * (c.toNat - 48) + (d.toNat - 48))
          :: yearScanGo fuel rest2
      else yearScanGo fuel (b :: c :: d :: rest2)
    | _ => []

/-- Translation of `ATSCalculator._estimate_years_from_resume`: collect the
distinct year tokens; with at least two distinct years the span
`max - min` is clamped to `[0, 40]`, otherwise the estimate is `0`. -/
def estimateYears (s : String) : Nat :=
  let ys := (yearScanGo s.data.length s.data).dedup
  match ys with
  | [] => 0
  | y :: rest =>
    if rest.isEmpty then 0
    else Nat.min 40 (rest.foldl Nat.max y - rest.foldl Nat.min y)

/-! ## Resume structure and issue records -/

/-- One parsed content element of the resume (`resume_structure` entries):
the engine reads the `type`, `content` and `font_size` keys.  `fontSize` is
`none` when the key is absent or non-numeric. -/
structure ContentElement where
  kind : String
  content : String
  fontSize : Option ℚ := none
deriving DecidableEq

/-- An `{issue, advice}` advice record. -/
structure Issue where
  issue : String
  advice : String
deriving DecidableEq

/-! ## `suggest_skills.py` -/

/-- The curated `COMMON_SKILLS` vocabulary from `suggest_skills.py`. -/
def COMMON_SKILLS : List String :=
  [ "python", "java", "javascript", "typescript", "c++", "c#", "c", "ruby", "php", "swift",
    "kotlin", "go", "rust", "scala", "r", "matlab", "perl", "shell", "bash", "powershell",
    "html", "css", "react", "angular", "vue", "node.js", "express", "django", "flask",
    "spring", "laravel", "ruby on rails", "asp.net", ".net", "jquery", "bootstrap", "sass",
    "less",
    "sql", "mysql", "postgresql", "mongodb", "redis", "elasticsearch", "oracle", "sqlite",
    "nosql", "cassandra", "dynamodb", "firebase",
    "aws", "azure", "gcp", "docker", "kubernetes", "jenkins", "git", "github", "gitlab",
    "terraform", "ansible", "chef", "puppet", "vagrant", "linux", "unix", "windows",
    "machine learning", "deep learning", "tensorflow", "pytorch", "keras", "scikit-learn",
    "pandas", "numpy", "matplotlib", "seaborn", "jupyter", "tableau", "power bi",
    "data analysis", "data science", "statistics", "excel",
    "ios", "android", "react native", "flutter", "xamarin", "cordova", "ionic",
    "api", "rest", "graphql", "microservices", "agile", "scrum", "kanban", "jira",
    "confluence", "slack", "teams", "zoom" ]

/-- Translation of `suggest_skills.clean_phrase`:
`re.sub(r'[^\w\s]', ' ', text.lower()).strip()`. -/
def cleanPhrase (s : String) : String :=
  pyStrip (String.mk ((toLowerS s).data.map
    (fun c => if wordChar c || isWsChar c then c else ' ')))

/-- Character class `[\w\s/&+.-] (with the dash written last)` of the captured group in the two
skill patterns. -/
def skillClassChar (c : Char) : Bool :=
  wordChar c || isWsChar c || c = '/' || c = '&' || c = '+' || c = '.' || c = '-'

/-- Character class `[\s:]` separating trigger phrase and captured group. -/
def patSepCls (c : Char) : Bool :=
  isWsChar c || c = ':'

/-- Index of the last `.` in a list, if any. -/
def lastDotIdx (l : List Char) : Option Nat :=
  match l.reverse.findIdx? (fun c => c = '.') with
  | some r => some (l.length - 1 - r)
  | none => none

/-- Resolve the greedy captured group and the terminator `(?:\.|,|;|$)`.
`R` is the maximal run of group-class characters, `after` what follows it,
`base` the number of characters consumed before `R`.  Greedy backtracking:
the full run stands if followed by `,`/`;` or the end of input; otherwise
the group backs off to just before the last `.` inside the run (which then
serves as the terminator), failing if that would empty the group. -/
def groupResolve (R after : List Char) (base : Nat) : Option (List Char × Nat) :=
  if after.isEmpty then some (R, base + R.length)
  else if after.head? = some ',' || after.head? = some ';' then
    some (R, base + R.length + 1)
  else
    match lastDotIdx R with
    | some k => if 1 ≤ k then some (R.take k, base + k + 1) else none
    | none => none

/-- Try the alternation of trigger phrases at the current position
(alternatives in the pattern's order, with the optional trailing `s`
expanded into the longer variant first, matching greedy `s?`).  On success
returns the captured group and the total number of characters consumed. -/
def tryTrigGo (l : List Char) : List (List Char) → Option (List Char × Nat)
  | [] => none
  | t :: ts =>
    if leadEqCi t l then
      let rest1 := l.drop t.length
      let sep := rest1.takeWhile patSepCls
      if sep.isEmpty then tryTrigGo l ts
      else
        let rest2 := rest1.drop sep.length
        let R := rest2.takeWhile skillClassChar
        if R.isEmpty then tryTrigGo l ts
        else
          match groupResolve R (rest2.drop R.length) (t.length + sep.length) with
          | some res => some res
          | none => tryTrigGo l ts
    else tryTrigGo l ts

/-- A pattern match starting exactly here: leading `\b` (every trigger
starts with a letter, so the previous character must not be a `\w`
character), then the trigger alternation. -/
def tryTrigAt (trigs : List (List Char)) (prev : Option Char) (l : List Char) :
    Option (List Char × Nat) :=
  if (match prev with | none => true | some p => !wordChar p) then tryTrigGo l trigs
  else none

/-- `re.finditer` scan: left-to-right, non-overlapping; on a match, emit the
captured group and resume after the match's end. -/
def patGo (trigs : List (List Char)) : Nat → Option Char → List Char → List (List Char)
  | 0, _, _ => []
  | _ + 1, _, [] => []
  | fuel + 1, prev, c :: rest =>
    match tryTrigAt trigs prev (c :: rest) with
    | some (grp, consumed) =>
      grp :: patGo trigs fuel ((List.take consumed (c :: rest)).getLast?)
        ((c :: rest).drop consumed)
    | none => patGo trigs fuel (some c) rest

/-- Trigger alternation of the first skill pattern
`\b(?:proficient in|experience with|skilled in|expertise in|knowledge of|familiar with)`. -/
def trigs1 : List (List Char) :=
  ["proficient in".data, "experience with".data, "skilled in".data,
   "expertise in".data, "knowledge of".data, "familiar with".data]

/-- Trigger alternation of the second skill pattern
`\b(?:technologies?|skills?|tools?)` with the optional `s` expanded. -/
def trigs2 : List (List Char) :=
  ["technologies".data, "technologie".data, "skills".data, "skill".data,
   "tools".data, "tool".data]

/-- `re.split(r'[,/&+]', ...)`: split the captured group on the four
separator characters, keeping empty pieces (they are filtered afterwards by
the `if s.strip()` guard, as in the source). -/
def splitSepsGo : List Char → List Char → List (List Char)
  | acc, [] => [acc.reverse]
  | acc, c :: rest =>
    if c = ',' || c = '/' || c = '&' || c = '+' then
      acc.reverse :: splitSepsGo [] rest
    else splitSepsGo (c :: acc) rest

/-- The secondary pattern layer of `suggest_skills.extract_skills`: all
cleaned tokens contributed by the two `skill_patterns` regexes. -/
def patternTokens (text : String) : Finset String :=
  let gs := patGo trigs1 (text.data.length + 1) none text.data ++
            patGo trigs2 (text.data.length + 1) none text.data
  ((gs.map (fun g => (splitSepsGo [] g).filterMap (fun piece =>
      if (stripL piece).isEmpty then none
      else some (cleanPhrase (String.mk piece))))).flatten).toFinset

/-- Deterministic model of the external NLP collaborators.  `annotateRes`
is the SkillNER annotator: `some (full, ngrams)` is a successful call with
the `full_matches` values and the `ngram_scored` (value, score) pairs,
`none` is a raised exception.  `entsRes` lists spaCy named entities as
(text, label) pairs.  `tfidfRes` is the TF-IDF + cosine-similarity
computation over the two documents, `none` a raised exception.  `sentLens`
gives the non-punctuation token count of each sentence of a text, and
`verbStart` whether the first non-punctuation token of a bullet is tagged
as a verb. -/
structure NlpOracle where
  annotateRes : String → Option (List String × List (String × ℚ))
  entsRes : String → List (String × String)
  tfidfRes : String → String → Option ℚ
  sentLens : String → List Nat
  verbStart : String → Bool

/-- Primary path of `suggest_skills.extract_skills`: cleaned
`full_matches` plus cleaned `ngram_scored` values with score above `0.7`,
both filtered to non-empty cleaned text of length at most 100; `none`
(a raised exception) yields the empty set and a demoted flag. -/
def suggestPrimary (o : NlpOracle) (text : String) : Finset String × Bool :=
  match o.annotateRes text with
  | some (full, ngrams) =>
    let fs := (full.map cleanPhrase).filter
      (fun s => s ≠ "" && decide (s.length ≤ 100))
    let ns := ((ngrams.filter (fun m => (7 : ℚ)/10 < m.2)).map
      (fun m => cleanPhrase m.1)).filter
      (fun s => s ≠ "" && decide (s.length ≤ 100))
    ((fs ++ ns).toFinset, true)
  | none => (∅, false)

/-- The fallback branch of `suggest_skills.extract_skills`: spaCy entities
with label in {PERSON, ORG, PRODUCT} whose cleaned text is in
`COMMON_SKILLS`, plus every `COMMON_SKILLS` member occurring as a
substring of the lowercased text. -/
def suggestFallbackSet (o : NlpOracle) (text : String) : Finset String :=
  let tl := toLowerS text
  let nerSkills := (o.entsRes text).filterMap (fun e =>
    if e.2 = "PERSON" || e.2 = "ORG" || e.2 = "PRODUCT" then
      let sk := cleanPhrase e.1
      if sk ≠ "" && decide (sk.length ≤ 100) && decide (toLowerS sk ∈ COMMON_SKILLS)
      then some (toLowerS sk) else none
    else none)
  let commonHits := COMMON_SKILLS.filter (fun sk => subS sk tl)
  (nerSkills ++ commonHits).toFinset

/-- Translation of `suggest_skills.extract_skills`.  The Boolean `flag` is
the process-wide `skill_extractor is not None` state; the function returns
the extracted skill set together with the updated flag (an annotator
exception permanently demotes it).  The secondary pattern layer always
runs (after either the primary or the fallback path) for non-blank
input. -/
def suggestExtractSkills (o : NlpOracle) (flag : Bool) (text : String) :
    Finset String × Bool :=
  if text = "" then (∅, flag)
  else if pyStrip text = "" then (∅, flag)
  else
    let prim : Finset String × Bool :=
      if flag then suggestPrimary o text else (∅, false)
    let base : Finset String :=
      if prim.2 then prim.1 else suggestFallbackSet o text
    (base ∪ patternTokens text, prim.2)

/-- Importance metric of `get_missing_skills`:
`jd_text.lower().count(skill.lower())`. -/
def gapImp (jd s : String) : Nat :=
  countOcc (toLowerS s) (toLowerS jd)

/-- The sort order of `get_missing_skills`: Python's ascending sort on the
key `(-importance, skill.lower())`, i.e. descending importance with ties
broken by the lowercased skill in lexicographic (code-point) order. -/
def gapOrd (jd : String) (a b : String) : Prop :=
  gapImp jd b < gapImp jd a ∨
    (gapImp jd a = gapImp jd b ∧ (toLowerS a).data ≤ (toLowerS b).data)

instance (jd : String) : DecidableRel (gapOrd jd) := fun a b => by
  unfold gapOrd; infer_instance

/-- Translation of `suggest_skills.get_missing_skills`: empty output on an
empty input; otherwise extract both skill sets (threading the extractor
flag through the two calls), take the set difference, keep only
`COMMON_SKILLS` members of length above 2, sort by the importance key, and
truncate to the first 20. -/
def getMissingSkills (o : NlpOracle) (flag : Bool) (jd resume : String) :
    List String :=
  if jd = "" ∨ resume = "" then []
  else
    let jdRes := suggestExtractSkills o flag jd
    let resRes := suggestExtractSkills o jdRes.2 resume
    let missing := jdRes.1 \ resRes.1
    let filtered := (missing.sort (· ≤ ·)).filter
      (fun s => decide (toLowerS s ∈ COMMON_SKILLS) && decide (2 < s.length))
    (filtered.insertionSort (gapOrd jd)).take 20

/-! ## `ats_calculator.py` -/

/-- Translation of `ATSCalculator._validate_text` (the `name` argument only
feeds the message).  The density test counts alphanumeric-or-whitespace
characters over the whole (unstripped) text. -/
def validateText (text nm : String) : Bool × String :=
  if pyStrip text = "" then (false, nm ++ " is empty or not a string")
  else if (pyStrip text).length < 50 then
    (false, nm ++ " is too short (min 50 chars)")
  else
    let cnt := (text.data.filter (fun c => c.isAlphanum || isWsChar c)).length
    let dens : ℚ := (cnt : ℚ) / (max 1 text.length : ℕ)
    if dens < 1/2 then (false, nm ++ " contains too many non-text characters")
    else (true, "")

/-- Per-element name test of the disqualifier loop: a heading whose
stripped content is non-empty, splits into 1–5 whitespace-separated parts,
at least one of which starts with an uppercase letter ("Relaxed name
detection" in the source). -/
def elemNameOk (it : ContentElement) : Bool :=
  let content := pyStrip it.content
  it.kind = "heading" && content ≠ "" &&
    (let parts := pySplitWs content
     decide (1 ≤ parts.length) && decide (parts.length ≤ 5) &&
       parts.any (fun p => p ≠ "" && startsUpper p))

/-- Per-element email test of the disqualifier loop. -/
def elemEmailOk (it : ContentElement) : Bool :=
  emailHitAts (pyStrip it.content)

/-- Per-element phone-or-profile test of the disqualifier loop (the
LinkedIn/GitHub patterns are applied to the lowercased content). -/
def elemPhoneProfileOk (it : ContentElement) : Bool :=
  let content := pyStrip it.content
  phoneHitAts content || linkedinHit (toLowerS content) || githubHit (toLowerS content)

/-- The disqualifier loop: accumulate the `has_name`, `has_email` and
`has_phone_or_profile` flags over all elements. -/
def gateScan : List ContentElement → Bool × Bool × Bool
  | [] => (false, false, false)
  | it :: rest =>
    let r := gateScan rest
    (elemNameOk it || r.1, elemEmailOk it || r.2.1, elemPhoneProfileOk it || r.2.2)

/-- Translation of `ATSCalculator._check_disqualifiers`: tables or images
fail immediately; otherwise require a name heading plus an email or a
phone/profile signal. -/
def checkDisqualifiers (struct : List ContentElement) : Bool × String :=
  if struct.any (fun it => it.kind = "table" || it.kind = "image") then
    (false, "Resume contains tables or images (not ATS-friendly)")
  else
    let s := gateScan struct
    if !(s.1 && (s.2.1 || s.2.2)) then
      (false, "Missing minimal contact information (name + email + phone or profile)")
    else (true, "")

/-- The cached per-job-description state of `ATSCalculator.__init__`: the
normalized JD text, the JD skill set extracted at construction, and the
coarse required-years figure (`0` when the JD states none). -/
structure JobProfile where
  jdText : String
  jdSkills : Finset String
  jdRequiredYears : Nat

/-- The `IMPORTANT_KEYWORDS` vocabulary of `ATSCalculator`. -/
def IMPORTANT_KEYWORDS : List String :=
  ["experience", "education", "skills", "projects", "certifications",
   "leadership", "achievements", "technical", "professional", "summary"]

/-- The hard-coded fallback vocabulary of `ATSCalculator._extract_skills`. -/
def ATS_FALLBACK : List String :=
  ["python", "java", "javascript", "sql", "html", "css", "react", "angular",
   "machine learning", "data analysis", "docker", "kubernetes", "aws", "azure"]

/-- Fallback branch of `ATSCalculator._extract_skills`: every fallback
vocabulary member occurring as a substring of the lowercased text. -/
def atsFallbackSkills (text : String) : Finset String :=
  (ATS_FALLBACK.filter (fun sk => subS sk (toLowerS text))).toFinset

/-- Translation of `ATSCalculator._extract_skills` (note: unlike the
`suggest_skills` variant, annotator values are only lowercased and
stripped, with no length filter, and there is no secondary pattern
layer). -/
def atsExtractSkills (o : NlpOracle) (flag : Bool) (text : String) :
    Finset String × Bool :=
  if pyStrip text = "" then (∅, flag)
  else if flag then
    match o.annotateRes text with
    | some (full, ngrams) =>
      (((full.map (fun v => pyStrip (toLowerS v))) ++
        ((ngrams.filter (fun m => (7 : ℚ)/10 < m.2)).map
          (fun m => pyStrip (toLowerS m.1)))).toFinset, true)
    | none => (atsFallbackSkills text, false)
  else (atsFallbackSkills text, false)

/-- Skill coverage: `|JD skills ∩ resume skills| / |JD skills|`, `0` when
the JD has no detected skills. -/
def skillCoverage (p : JobProfile) (rs : Finset String) : ℚ :=
  if p.jdSkills = ∅ then 0
  else ((p.jdSkills ∩ rs).card : ℚ) / p.jdSkills.card

/-- The TF-IDF similarity component: weight `0.20` times the similarity on
success, `0.0` when vectorization raised (the `except` branch of
`_content_score` leaves the component at `0.0` and continues). -/
def tfidfComponent : Option ℚ → ℚ
  | some s => (20 : ℚ)/100 * s
  | none => 0

/-- The keyword component: weight `0.15` times the fraction of
`IMPORTANT_KEYWORDS` occurring in the lowercased normalized resume text
(`kw in doc.text` is substring containment, since spaCy's `doc.text` is
the input text). -/
def keywordComponent (rn : String) : ℚ :=
  (15 : ℚ)/100 *
    (((IMPORTANT_KEYWORDS.filter (fun k => subS k (toLowerS rn))).length : ℚ) / 10)

/-- Translation of `ATSCalculator._experience_bonus`: `0.02` when the
year-span estimate meets the JD requirement, `0` otherwise or when the JD
states no requirement. -/
def expBonus (p : JobProfile) (rn : String) : ℚ :=
  if p.jdRequiredYears = 0 then 0
  else if p.jdRequiredYears ≤ estimateYears rn then (2 : ℚ)/100
  else 0

/-- Translation of `ATSCalculator._content_score`: skill coverage (0.25),
TF-IDF similarity (0.20), keyword matching (0.15) and the experience
bonus, clamped to `[0, 0.60]`.  Returns the updated extractor flag
alongside the score. -/
def contentScore (p : JobProfile) (o : NlpOracle) (flag : Bool) (text : String) :
    ℚ × Bool :=
  let rn := pyNormalize text
  let ex := atsExtractSkills o flag rn
  let total := (25 : ℚ)/100 * skillCoverage p ex.1 +
    tfidfComponent (o.tfidfRes p.jdText rn) + keywordComponent rn + expBonus p rn
  (max 0 (min ((60 : ℚ)/100) total), ex.2)

/-- Increment a counter entry (Python `Counter[current] += 1`; a missing
key defaults to 0 and then increments to 1, though the loop always
initializes keys first). -/
def bump : List (String × Nat) → String → List (String × Nat)
  | [], h => [(h, 1)]
  | (k, v) :: rest, h =>
    if k = h then (k, v + 1) :: rest else (k, v) :: bump rest h

/-- The bullet-counting loop of `_formatting_score`: a running current
section (reset on every heading, only container headings tracked), with a
counter initialized once per container heading (`if current not in
bullets_by_section`). -/
def bcGo : Option String → List (String × Nat) → List ContentElement →
    List (String × Nat)
  | _, acc, [] => acc
  | cur, acc, it :: rest =>
    if it.kind = "heading" then
      let h := toLowerS it.content
      if h = "experience" || h = "projects" || h = "project" || h = "education" then
        let acc' := if (acc.lookup h).isNone then acc ++ [(h, 0)] else acc
        bcGo (some h) acc' rest
      else bcGo none acc rest
    else if it.kind = "bullet" then
      match cur with
      | some h => bcGo cur (bump acc h) rest
      | none => bcGo cur acc rest
    else bcGo cur acc rest

/-- Translation of `ATSCalculator._formatting_score`: section presence
(0.20), bullet balance (0.10, clamped), readability and action verbs
(0.10, clamped), with a final clamp to `[0, 0.40]`. -/
def formattingScore (o : NlpOracle) (text : String) (struct : List ContentElement) : ℚ :=
  let headings := struct.filterMap
    (fun it => if it.kind = "heading" then some (toLowerS it.content) else none)
  let present := (headings.filter
    (fun h => h = "skills" || h = "experience" || h = "education")).dedup
  let sectionsComp := (20 : ℚ)/100 * ((present.length : ℚ) / 3)
  let counts := bcGo none [] struct
  let bulletRaw := counts.foldl
    (fun acc kv => acc + (if 2 ≤ kv.2 then (10 : ℚ)/100/4 else 0) +
      (if 4 < kv.2 then -((10 : ℚ)/100/10) else 0)) 0
  let bulletComp := max 0 (min ((10 : ℚ)/100) bulletRaw)
  let lens := o.sentLens text
  let avgLen : ℚ := if lens.isEmpty then 0 else (lens.sum : ℚ) / lens.length
  let readRaw := (if 10 ≤ avgLen ∧ avgLen ≤ 30 then (10 : ℚ)/100 * (1/2) else 0) +
    (if 3 ≤ (struct.filter (fun it => it.kind = "bullet" && o.verbStart it.content)).length
     then (10 : ℚ)/100 * (1/2) else 0)
  let readComp := max 0 (min ((10 : ℚ)/100) readRaw)
  max 0 (min ((40 : ℚ)/100) (sectionsComp + bulletComp + readComp))

/-- Translation of `ATSCalculator.total_score`: validate the resume text,
require a non-empty structure, run the disqualifier gate, then combine the
content and formatting scores into `int(round((content + formatting) *
100))`.  Returns the updated extractor flag alongside the score. -/
def totalScore (p : JobProfile) (o : NlpOracle) (flag : Bool) (text : String)
    (struct : List ContentElement) : ℤ × Bool :=
  if !(validateText text "Resume").1 then (0, flag)
  else if struct.isEmpty then (0, flag)
  else if !(checkDisqualifiers struct).1 then (0, flag)
  else
    let cs := contentScore p o flag text
    let fs := formattingScore o text struct
    (pyRound ((cs.1 + fs) * 100), cs.2)

/-! ## `restructure_advice.py` -/

/-- Contact-information validation results (`ContactInfo` dataclass). -/
structure ContactInfo where
  name : Bool := false
  email : Bool := false
  phone : Bool := false
  profile : Bool := false
deriving DecidableEq

/-- Translation of `restructure_advice.check_contact_info`.  Raises
(`Except.error`) when the text is blank, exactly as the source's
`ValueError`; otherwise returns (minimum-contact flag, `ContactInfo`,
issue list).  The name heuristic looks at the first line of the stripped
first 100 characters. -/
def checkContactInfo (text : String) : Except String (Bool × ContactInfo × List Issue) :=
  if pyStrip text = "" then .error "resume_text must be a non-empty string"
  else
    let first100 := pyStrip (String.mk (text.data.take 100))
    let firstLine := pyStrip (String.mk (first100.data.takeWhile (fun c => c ≠ '\n')))
    let parts := pySplitWs firstLine
    let nameOk := decide (2 ≤ parts.length) && decide (parts.length ≤ 4) &&
      parts.all (fun p => p ≠ "" && startsUpper p)
    let emailOk := emailHitAdv text
    let phoneOk := phoneHitAdv text
    let profOk := linkedinHit text || githubHit text
    let issues : List Issue :=
      (if !nameOk then
        [⟨"Missing or unclear name at the top of the resume",
          "Add your full name prominently at the top of your resume."⟩] else []) ++
      (if !emailOk && !phoneOk then
        [⟨"Missing both email and phone number",
          "Include at least one reliable contact method (email or phone)."⟩] else []) ++
      (if !profOk then
        [⟨"No professional profile links",
          "Consider adding your LinkedIn profile or personal website."⟩] else [])
    .ok (nameOk && (emailOk || phoneOk), ⟨nameOk, emailOk, phoneOk, profOk⟩, issues)

/-- The required-section variant groups of `check_sections`, paired with
the `section_name.title()` display names. -/
def sectionVariants : List (String × List String) :=
  [("Experience", ["experience", "work experience", "employment history"]),
   ("Education", ["education", "academic background"]),
   ("Skills", ["skills", "technical skills", "key skills"])]

/-- The issue emitted by `check_sections` when the first heading does not
look like a capitalized name. -/
def nameTopIssue : Issue :=
  ⟨"Name/contact information not at the top",
   "Place your name and contact information at the top of the first page."⟩

/-- Translation of `restructure_advice.check_sections`: missing-section
issues (case-insensitive literal search of each variant in the resume
text), then the name-at-top heuristic on the first heading of the
structure (lowercased and stripped before the capitalized-name test). -/
def checkSections (text : String) (struct : List ContentElement) :
    Except String (List Issue) :=
  if pyStrip text = "" then .error "resume_text must be a non-empty string"
  else
    let missing := sectionVariants.filterMap (fun g =>
      if g.2.any (fun v => subS v (toLowerS text)) then none
      else some (⟨"Missing \"" ++ g.1 ++ "\" section",
        "Add a clearly labeled \"" ++ g.1 ++ "\" section."⟩ : Issue))
    let headings := struct.filterMap (fun it =>
      if it.kind = "heading" && it.content ≠ "" then
        some (pyStrip (toLowerS it.content)) else none)
    let nameIssues : List Issue :=
      match headings with
      | [] => []
      | h :: _ =>
        let parts := pySplitWs h
        if !(decide (2 ≤ parts.length) && decide (parts.length ≤ 4) &&
             parts.all (fun p => decide (p = "") || startsUpper p)) then
          [nameTopIssue]
        else []
    .ok (missing ++ nameIssues)

/-- Translation of `restructure_advice.check_formatting` (the source
interpolates the offending minimum size into the first message with
`{min_size:.1f}`; that numeric rendering is elided from the modelled
string, which no claim inspects). -/
def checkFormatting (struct : List ContentElement) : List Issue :=
  let fontSizes := struct.filterMap (fun it => it.fontSize)
  let fontIssues : List Issue :=
    match fontSizes with
    | [] => []
    | f :: rest =>
      let mn := rest.foldl min f
      let mx := rest.foldl max f
      (if mn < 9 then
        [⟨"Font size too small",
          "Increase all text to at least 10pt for better readability."⟩] else []) ++
      (if 6 < mx - mn then
        [⟨"Inconsistent font sizes",
          "Limit font size variations to 2-3 sizes for better visual hierarchy."⟩] else [])
  let tableIssues : List Issue :=
    if 0 < (struct.filter (fun it => it.kind = "table")).length then
      [⟨"Uses tables or columns",
        "Avoid tables and columns as they may cause parsing issues with ATS."⟩] else []
  let imageIssues : List Issue :=
    if 0 < (struct.filter (fun it => it.kind = "image")).length then
      [⟨"Contains images or graphics",
        "Remove images, icons, and graphics as they are not ATS-friendly."⟩] else []
  fontIssues ++ tableIssues ++ imageIssues

/-- Reset a section's bullet counter to zero, inserting the key if new
(Python dict assignment `section_bullets[current_section] = 0`). -/
def resetEntry (acc : List (String × Nat)) (h : String) : List (String × Nat) :=
  if (acc.lookup h).isNone then acc ++ [(h, 0)]
  else acc.map (fun kv => if kv.1 = h then (kv.1, 0) else kv)

/-- The bullet-grouping loop of `check_content_quality`: headings
containing one of the tracked section words (substring test) become the
current section, with the counter reset on every such heading. -/
def cqGo : Option String → List (String × Nat) → List ContentElement →
    List (String × Nat)
  | _, acc, [] => acc
  | cur, acc, it :: rest =>
    if it.kind = "heading" then
      let h := pyStrip (toLowerS it.content)
      if subS "experience" h || subS "work experience" h || subS "projects" h ||
         subS "education" h then
        cqGo (some h) (resetEntry acc h) rest
      else cqGo none acc rest
    else if it.kind = "bullet" then
      match cur with
      | some h => cqGo cur (bump acc h) rest
      | none => cqGo cur acc rest
    else cqGo cur acc rest

/-- The expanded action-verb list of `check_content_quality`. -/
def actionVerbs : List (List Char) :=
  (["achieved", "managed", "increased", "developed", "led", "implemented",
    "created", "improved", "reduced", "designed", "launched", "spearheaded",
    "built", "optimized", "analyzed", "collaborated", "mentored", "taught",
    "coordinated", "executed", "facilitated", "generated", "resolved"]
    : List String).map String.data

/-- `re.search` of `\b(verb1|...|verbN)\w*\b` with `re.IGNORECASE`: some
verb occurs at a word boundary (the trailing `\w*\b` always succeeds by
extending to the end of the word run). -/
def actionVerbGo : Option Char → List Char → Bool
  | _, [] => false
  | prev, c :: rest =>
    ((match prev with | none => true | some p => !wordChar p) &&
      actionVerbs.any (fun v => leadEqCi v (c :: rest))) ||
    actionVerbGo (some c) rest

/-- Whether the resume text contains any recognized action verb. -/
def hasActionVerb (s : String) : Bool :=
  actionVerbGo none s.data

/-- Translation of `restructure_advice.check_content_quality`: per-section
bullet-count issues then the action-verb issue. -/
def checkContentQuality (text : String) (struct : List ContentElement) :
    Except String (List Issue) :=
  if pyStrip text = "" then .error "resume_text must be a non-empty string"
  else
    let counts := cqGo none [] struct
    let bulletIssues := counts.filterMap (fun kv =>
      if kv.2 = 0 && (subS "experience" kv.1 || subS "work experience" kv.1) then
        some (⟨"No bullet points in \"" ++ kv.1 ++ "\" section",
          "Use 3-5 bullet points per position to highlight achievements."⟩ : Issue)
      else if 5 < kv.2 then
        some (⟨"Too many bullet points (" ++ toString kv.2 ++ ") in \"" ++ kv.1 ++ "\"",
          "Limit to 5 bullet points per position for better readability."⟩ : Issue)
      else none)
    let verbIssues : List Issue :=
      if !hasActionVerb text then
        [⟨"Weak action verbs",
          "Start bullet points with strong action verbs (e.g., \"Led\", \"Developed\", \"Increased\")."⟩]
      else []
    .ok (bulletIssues ++ verbIssues)

/-- The positive entry returned when no rule group produced an issue. -/
def noIssuesEntry : Issue :=
  ⟨"No major issues detected",
   "Your resume appears to be well-structured for ATS. Consider having it reviewed by a professional for further optimization."⟩

/-- The entry returned for empty (falsy) resume text. -/
def invalidTextEntry : Issue :=
  ⟨"Invalid resume text", "Provide valid resume text for analysis."⟩

/-- Translation of `restructure_advice.analyze_resume_structure`: empty
text short-circuits to the invalid-text entry; otherwise the four rule
groups run in order (an uncaught `ValueError` from `check_contact_info` on
whitespace-only text propagates, as in the source, which has no
try/except around the group calls); their concatenation is returned, or
the single positive entry when all groups are silent. -/
def analyzeResumeStructure (text : String) (struct : List ContentElement) :
    Except String (List Issue) :=
  if text = "" then .ok [invalidTextEntry]
  else
    match checkContactInfo text with
    | .error e => .error e
    | .ok ci =>
      match checkSections text struct with
      | .error e => .error e
      | .ok si =>
        match checkContentQuality text struct with
        | .error e => .error e
        | .ok qi =>
          let allIssues := ci.2.2 ++ si ++ checkFormatting struct ++ qi
          .ok (if allIssues.isEmpty then [noIssuesEntry] else allIssues)

/-! ## Shared lemmas -/

/-- Lower bound for the banker's rounding. -/
lemma pyRound_nonneg {q : ℚ} (h : 0 ≤ q) : 0 ≤ pyRound q := by
  have hf : (0 : ℤ) ≤ ⌊q⌋ := Int.floor_nonneg.mpr h
  simp only [pyRound]
  split_ifs <;> omega

/-- Upper bound for the banker's rounding. -/
lemma pyRound_le {q : ℚ} {n : ℤ} (h : q ≤ n) : pyRound q ≤ n := by
  have h1 : (⌊q⌋ : ℚ) ≤ q := Int.floor_le q
  have h0 : ⌊q⌋ ≤ n := (Int.floor_le_floor h).trans_eq (Int.floor_intCast n)
  simp only [pyRound]
  split_ifs with hr1 hr2 hpar
  · exact h0
  · have hlt : (⌊q⌋ : ℚ) < n := by linarith
    have : ⌊q⌋ < n := by exact_mod_cast hlt
    omega
  · exact h0
  · have heq : q - ⌊q⌋ = 1/2 := le_antisymm (not_lt.mp hr2) (not_lt.mp hr1)
    have hlt : (⌊q⌋ : ℚ) < n := by linarith
    have : ⌊q⌋ < n := by exact_mod_cast hlt
    omega

/-- The content score is clamped to `[0, 0.60]`. -/
lemma contentScore_bounds (p : JobProfile) (o : NlpOracle) (flag : Bool) (text : String) :
    0 ≤ (contentScore p o flag text).1 ∧ (contentScore p o flag text).1 ≤ 60/100 := by
  simp only [contentScore]
  exact ⟨le_max_left _ _, max_le (by norm_num) (min_le_left _ _)⟩

/-- The formatting score is clamped to `[0, 0.40]`. -/
lemma formattingScore_bounds (o : NlpOracle) (text : String) (struct : List ContentElement) :
    0 ≤ formattingScore o text struct ∧ formattingScore o text struct ≤ 40/100 := by
  simp only [formattingScore]
  exact ⟨le_max_left _ _, max_le (by norm_num) (min_le_left _ _)⟩

/-! ## Claim theorems -/

/-- C1: whenever the disqualifier gate fails on a resume structure,
`total_score` returns 0 (the content and formatting terms never enter the
result), whatever the resume text and oracle behavior. -/
theorem c1_gate_fail_scores_zero (p : JobProfile) (o : NlpOracle) (flag : Bool)
    (text : String) (struct : List ContentElement)
    (h : (checkDisqualifiers struct).1 = false) :
    (totalScore p o flag text struct).1 = 0 := by
  simp only [totalScore, h]
  split_ifs <;> simp_all

/-- Witness for C1 at a structure containing a table element. -/
theorem c1_gate_fail_scores_zero_witness :
    (checkDisqualifiers [⟨"table", "", none⟩]).1 = false ∧
      (totalScore ⟨"python developer", {"python"}, 0⟩
        ⟨fun _ => none, fun _ => [], fun _ _ => none, fun _ => [], fun _ => false⟩
        false "John Smith is a software engineer with experience in Python."
        [⟨"table", "", none⟩]).1 = 0 :=
  ⟨by decide, c1_gate_fail_scores_zero _ _ _ _ _ (by decide)⟩

/-- C2: for any resume text and non-empty structure the score is an
integer in `[0, 100]` (the content term being clamped to `[0, 0.60]`, the
formatting term to `[0, 0.40]`, the result being the rounding of their
scaled sum), and any text failing validation scores exactly 0. -/
theorem c2_score_in_range (p : JobProfile) (o : NlpOracle) (flag : Bool)
    (text : String) (struct : List ContentElement) (_hs : struct ≠ []) :
    0 ≤ (totalScore p o flag text struct).1 ∧
      (totalScore p o flag text struct).1 ≤ 100 ∧
      ((validateText text "Resume").1 = false → (totalScore p o flag text struct).1 = 0) := by
  have hc := contentScore_bounds p o flag text
  have hf := formattingScore_bounds o text struct
  simp only [totalScore]
  split_ifs with h1 h2 h3
  · exact ⟨le_refl 0, by norm_num, fun _ => rfl⟩
  · exact ⟨le_refl 0, by norm_num, fun _ => rfl⟩
  · exact ⟨le_refl 0, by norm_num, fun _ => rfl⟩
  · refine ⟨pyRound_nonneg (by nlinarith [hc.1, hf.1]), ?_, ?_⟩
    · have : ((contentScore p o flag text).1 + formattingScore o text struct) * 100 ≤
          ((100 : ℤ) : ℚ) := by push_cast; nlinarith [hc.2, hf.2]
      exact pyRound_le this
    · intro hv
      exact absurd hv (by simpa using h1)

/-- Witness for C2 on a concrete valid input. -/
theorem c2_score_in_range_witness :
    (([⟨"heading", "John Smith", none⟩, ⟨"text", "john@example.com", none⟩] :
        List ContentElement) ≠ []) ∧
      0 ≤ (totalScore ⟨"python sql developer", {"python", "sql"}, 0⟩
        ⟨fun _ => none, fun _ => [], fun _ _ => some (1/2), fun _ => [12], fun _ => false⟩
        false "John Smith is a software engineer with Python experience and education."
        [⟨"heading", "John Smith", none⟩, ⟨"text", "john@example.com", none⟩]).1 := by
  refine ⟨by decide, ?_⟩
  exact (c2_score_in_range _ _ _ _ _ (by decide)).1

/-- Evaluation of `Char.ofNat` at valid code points below the surrogate
range. -/
lemma char_toNat_ofNat {n : Nat} (h : n < 55296) : (Char.ofNat n).toNat = n := by
  unfold Char.ofNat
  rw [dif_pos (Or.inl h)]
  rfl

/-- ASCII lowercasing is idempotent. -/
lemma toLowerChar_idem (c : Char) : toLowerChar (toLowerChar c) = toLowerChar c := by
  unfold toLowerChar
  split_ifs with h1 h2
  · have := char_toNat_ofNat (n := c.toNat + 32) (by omega)
    omega
  · rfl
  · rfl

/-- An ASCII-lowercased character is never an ASCII uppercase letter. -/
lemma upperA_toLowerChar (c : Char) : upperA (toLowerChar c) = false := by
  unfold toLowerChar upperA
  split_ifs with h
  · have := char_toNat_ofNat (n := c.toNat + 32) (by omega)
    simp only [Bool.and_eq_false_iff, decide_eq_false_iff_not, not_le]
    omega
  · simp only [Bool.and_eq_false_iff, decide_eq_false_iff_not, not_le]
    omega

/-- The skill extraction reads only the annotator field of the oracle. -/
lemma atsExtractSkills_congr (o o' : NlpOracle) (h : o.annotateRes = o'.annotateRes)
    (flag : Bool) (text : String) :
    atsExtractSkills o flag text = atsExtractSkills o' flag text := by
  unfold atsExtractSkills
  rw [h]

/-- C6: a failing TF-IDF vectorization contributes a zero similarity
component, and the content score is exactly what a successful call
returning similarity `0.0` would produce — the failure never escapes the
content-score computation. -/
theorem c6_tfidf_failure_is_soft (p : JobProfile) (o : NlpOracle) (flag : Bool)
    (text : String) (h : o.tfidfRes p.jdText (pyNormalize text) = none) :
    tfidfComponent (o.tfidfRes p.jdText (pyNormalize text)) = 0 ∧
      (contentScore p o flag text).1 =
        (contentScore p { o with tfidfRes := fun _ _ => some 0 } flag text).1 := by
  constructor
  · rw [h]; rfl
  · simp only [contentScore, h, tfidfComponent]
    rw [atsExtractSkills_congr o { o with tfidfRes := fun _ _ => some 0 } rfl flag
      (pyNormalize text)]
    norm_num

/-- Witness for C6 with an oracle whose vectorization always fails. -/
theorem c6_tfidf_failure_is_soft_witness :
    (NlpOracle.tfidfRes ⟨fun _ => none, fun _ => [], fun _ _ => none, fun _ => [], fun _ => false⟩
        (JobProfile.jdText ⟨"python sql developer", {"python", "sql"}, 0⟩)
        (pyNormalize "John Smith is a software engineer with Python experience.") = none) ∧
      tfidfComponent (NlpOracle.tfidfRes
        ⟨fun _ => none, fun _ => [], fun _ _ => none, fun _ => [], fun _ => false⟩
        (JobProfile.jdText ⟨"python sql developer", {"python", "sql"}, 0⟩)
        (pyNormalize "John Smith is a software engineer with Python experience.")) = 0 :=
  ⟨rfl, (c6_tfidf_failure_is_soft ⟨"python sql developer", {"python", "sql"}, 0⟩
    ⟨fun _ => none, fun _ => [], fun _ _ => none, fun _ => [], fun _ => false⟩
    false "John Smith is a software engineer with Python experience." rfl).1⟩

/-- Re-running `_extract_skills` with the flag state it produced yields the
same result: a successful primary call keeps the flag up; a failing one
demotes it and falls back, exactly what the already-demoted flag does. -/
lemma atsExtractSkills_idem (o : NlpOracle) (flag : Bool) (text : String) :
    atsExtractSkills o (atsExtractSkills o flag text).2 text =
      atsExtractSkills o flag text := by
  unfold atsExtractSkills
  by_cases h : pyStrip text = ""
  · simp [h]
  · cases flag with
    | false => simp [h]
    | true =>
      cases ha : o.annotateRes text with
      | none => simp [h, ha]
      | some v => simp [h, ha]

/-- The content score is unchanged when re-run with its own output flag. -/
lemma contentScore_idem (p : JobProfile) (o : NlpOracle) (flag : Bool) (text : String) :
    contentScore p o (contentScore p o flag text).2 text =
      contentScore p o flag text := by
  simp only [contentScore]
  rw [atsExtractSkills_idem]

/-- C8: calling `total_score` twice on the same calculator state with
identical inputs yields the same integer — the only state the first call
can change is the extractor-availability flag, and a demoted flag
reproduces the fallback extraction the first call already used. -/
theorem c8_repeat_same_score (p : JobProfile) (o : NlpOracle) (flag : Bool)
    (text : String) (struct : List ContentElement) :
    (totalScore p o (totalScore p o flag text struct).2 text struct).1 =
      (totalScore p o flag text struct).1 := by
  simp only [totalScore]
  split_ifs
  · rfl
  · rfl
  · rfl
  · rw [contentScore_idem]

/-- The disqualifier loop computes exactly the three existential flags. -/
lemma gateScan_eq (l : List ContentElement) :
    gateScan l = (l.any elemNameOk, l.any elemEmailOk, l.any elemPhoneProfileOk) := by
  induction l with
  | nil => rfl
  | cons it rest ih => simp [gateScan, ih, List.any_cons]

/-- Stated from the specification's wording of the gate's name condition
(for claim C3): a heading whose text has 1 to 5 whitespace-separated
tokens, each starting with an uppercase letter. -/
def specNameHeadingOk (it : ContentElement) : Bool :=
  it.kind = "heading" &&
    (let parts := pySplitWs it.content
     decide (1 ≤ parts.length) && decide (parts.length ≤ 5) && parts.all startsUpper)

/-- C3 counterexample: the structure `[heading "john Smith", text with an
email]` passes the gate even though no heading satisfies the claimed
each-token-uppercase name condition — the code accepts a heading as a name
as soon as one token is capitalized, so the gate does not pass "only when"
the claimed condition holds. -/
theorem c3_counterexample :
    (checkDisqualifiers [⟨"heading", "john Smith", none⟩,
        ⟨"text", "reach me: john@example.com", none⟩]).1 = true ∧
      ([⟨"heading", "john Smith", none⟩, ⟨"text", "reach me: john@example.com", none⟩] :
        List ContentElement).any specNameHeadingOk = false := by
  decide

/-- C3 amended: on a structure with no tables or images, the gate passes
exactly when some heading has non-empty stripped content with 1–5 tokens of
which at least one starts with an uppercase letter, and some element
matches the email pattern or the phone/LinkedIn/GitHub patterns. -/
theorem c3_amended_gate_contact (struct : List ContentElement)
    (h : struct.any (fun it => it.kind = "table" || it.kind = "image") = false) :
    (checkDisqualifiers struct).1 =
      (struct.any elemNameOk &&
        (struct.any elemEmailOk || struct.any elemPhoneProfileOk)) := by
  simp only [checkDisqualifiers, h, gateScan_eq]
  cases hx : (struct.any elemNameOk &&
      (struct.any elemEmailOk || struct.any elemPhoneProfileOk)) <;>
    simp [hx]

/-- Witness for the amended C3 on a concrete table-free structure. -/
theorem c3_amended_gate_contact_witness :
    (([⟨"heading", "john Smith", none⟩, ⟨"text", "reach me: john@example.com", none⟩] :
        List ContentElement).any (fun it => it.kind = "table" || it.kind = "image")
        = false) ∧
      (checkDisqualifiers [⟨"heading", "john Smith", none⟩,
          ⟨"text", "reach me: john@example.com", none⟩]).1 =
        (([⟨"heading", "john Smith", none⟩,
           ⟨"text", "reach me: john@example.com", none⟩] :
            List ContentElement).any elemNameOk &&
          (([⟨"heading", "john Smith", none⟩,
             ⟨"text", "reach me: john@example.com", none⟩] :
              List ContentElement).any elemEmailOk ||
           ([⟨"heading", "john Smith", none⟩,
             ⟨"text", "reach me: john@example.com", none⟩] :
              List ContentElement).any elemPhoneProfileOk)) :=
  ⟨by decide, c3_amended_gate_contact _ (by decide)⟩

/-- Tokens produced by the whitespace splitter are never empty. -/
lemma splitWsGo_ne_nil :
    ∀ (l acc : List Char), ∀ x ∈ splitWsGo acc l, x ≠ [] := by
  intro l
  induction l with
  | nil =>
    intro acc x hx
    simp only [splitWsGo] at hx
    split_ifs at hx with h
    · simp at hx
    · simp only [List.mem_singleton] at hx
      subst hx
      simpa [List.isEmpty_iff] using h
  | cons c rest ih =>
    intro acc x hx
    simp only [splitWsGo] at hx
    split_ifs at hx with h1 h2
    · exact ih [] x hx
    · rcases List.mem_cons.mp hx with h | h
      · subst h
        simpa [List.isEmpty_iff] using h2
      · exact ih [] x h
    · exact ih (c :: acc) x hx

/-- Every character of a whitespace-split token comes from the accumulator
or the input. -/
lemma splitWsGo_chars :
    ∀ (l acc : List Char), ∀ x ∈ splitWsGo acc l, ∀ c ∈ x, c ∈ acc ∨ c ∈ l := by
  intro l
  induction l with
  | nil =>
    intro acc x hx c hc
    simp only [splitWsGo] at hx
    split_ifs at hx with h
    · simp at hx
    · simp only [List.mem_singleton] at hx
      subst hx
      exact Or.inl (List.mem_reverse.mp hc)
  | cons a rest ih =>
    intro acc x hx c hc
    simp only [splitWsGo] at hx
    split_ifs at hx with h1 h2
    · rcases ih [] x hx c hc with h | h
      · simp at h
      · exact Or.inr (List.mem_cons_of_mem a h)
    · rcases List.mem_cons.mp hx with h | h
      · subst h
        exact Or.inl (List.mem_reverse.mp hc)
      · rcases ih [] x h c hc with h' | h'
        · simp at h'
        · exact Or.inr (List.mem_cons_of_mem a h')
    · rcases ih (a :: acc) x hx c hc with h | h
      · rcases List.mem_cons.mp h with h' | h'
        · exact Or.inr (h' ▸ List.mem_cons_self a rest)
        · exact Or.inl h'
      · exact Or.inr (List.mem_cons_of_mem a h)

/-- Characters survive stripping only if they were in the original list. -/
lemma mem_of_mem_stripL {c : Char} {l : List Char} (h : c ∈ stripL l) : c ∈ l := by
  unfold stripL at h
  have h1 := (List.dropWhile_sublist _).mem (List.mem_reverse.mp h)
  exact (List.dropWhile_sublist _).mem (List.mem_reverse.mp h1)

/-- Every character of a stripped lowercased string is a `toLowerChar`
image. -/
lemma stripLower_chars (s : String) :
    ∀ c ∈ (pyStrip (toLowerS s)).data, ∃ y, c = toLowerChar y := by
  intro c hc
  have h1 : c ∈ (toLowerS s).data := mem_of_mem_stripL hc
  simp only [toLowerS, List.mem_map] at h1
  obtain ⟨y, _, hy⟩ := h1
  exact ⟨y, hy.symm⟩

/-- The capitalized-name test of `check_sections` can never succeed on a
string all of whose characters are lowercased images. -/
lemma nameTest_false (h0 : String)
    (hchars : ∀ c ∈ h0.data, ∃ y, c = toLowerChar y) :
    (decide (2 ≤ (pySplitWs h0).length) && decide ((pySplitWs h0).length ≤ 4) &&
      (pySplitWs h0).all (fun p => decide (p = "") || startsUpper p)) = false := by
  by_cases hlen : 2 ≤ (pySplitWs h0).length
  · have hne : (pySplitWs h0) ≠ [] := by
      intro h; rw [h] at hlen; simp at hlen
    obtain ⟨p, t, hpt⟩ := List.exists_cons_of_ne_nil hne
    have hpmem : p ∈ pySplitWs h0 := by rw [hpt]; exact List.mem_cons_self p t
    simp only [pySplitWs, List.mem_map] at hpmem
    obtain ⟨x, hxmem, hxp⟩ := hpmem
    have hxne : x ≠ [] := splitWsGo_ne_nil _ _ x hxmem
    obtain ⟨c0, x', hx⟩ := List.exists_cons_of_ne_nil hxne
    have hc0 : c0 ∈ h0.data := by
      rcases splitWsGo_chars _ _ x hxmem c0 (hx ▸ List.mem_cons_self c0 x') with h | h
      · simp at h
      · exact h
    obtain ⟨y, hy⟩ := hchars c0 hc0
    have hupper : upperA c0 = false := hy ▸ upperA_toLowerChar y
    have hall : (pySplitWs h0).all (fun p => decide (p = "") || startsUpper p) = false := by
      rw [List.all_eq_false]
      refine ⟨p, by rw [hpt]; exact List.mem_cons_self p t, ?_⟩
      have hpe : p = String.mk x := hxp.symm
      rw [hpe]
      subst hx
      have hne' : ({ data := c0 :: x' } : String) ≠ "" := by
        intro h
        exact absurd (congrArg String.data h) (by simp)
      simp [startsUpper, hupper, hne']
    rw [hall]
    simp
  · have : decide (2 ≤ (pySplitWs h0).length) = false := by
      simpa using hlen
    rw [this]
    simp

/-- C10: on any resume text with non-whitespace content and any structure
whose headings include one with non-empty content, `check_sections` emits
the "Name/contact information not at the top" issue: the first heading is
lowercased before the capitalized-name test, so no first heading can pass
it. -/
theorem c10_name_top_issue_always (text : String) (struct : List ContentElement)
    (ht : pyStrip text ≠ "")
    (hh : ∃ it ∈ struct, it.kind = "heading" ∧ it.content ≠ "") :
    ∃ l, checkSections text struct = .ok l ∧ nameTopIssue ∈ l := by
  simp only [checkSections, if_neg ht]
  set hd := struct.filterMap (fun it =>
    if it.kind = "heading" && it.content ≠ "" then
      some (pyStrip (toLowerS it.content)) else none) with hdef
  have hne : hd ≠ [] := by
    obtain ⟨it, hmem, hk, hc⟩ := hh
    intro hnil
    rw [hdef, List.filterMap_eq_nil_iff] at hnil
    have := hnil it hmem
    simp [hk, hc] at this
  obtain ⟨h0, t, hht⟩ := List.exists_cons_of_ne_nil hne
  have hform : ∃ c : String, h0 = pyStrip (toLowerS c) := by
    have : h0 ∈ hd := by rw [hht]; exact List.mem_cons_self h0 t
    rw [hdef] at this
    rcases List.mem_filterMap.mp this with ⟨a, _, hfa⟩
    by_cases hcond : a.kind = "heading" && a.content ≠ ""
    · rw [if_pos hcond] at hfa
      exact ⟨a.content, (Option.some_inj.mp hfa).symm⟩
    · rw [if_neg hcond] at hfa
      exact absurd hfa (by simp)
  obtain ⟨c, hc⟩ := hform
  have hfail := nameTest_false h0 (hc ▸ stripLower_chars c)
  rw [hht]
  refine ⟨_, rfl, ?_⟩
  simp only [hfail]
  simp

/-- Witness for C10 on a concrete heading. -/
theorem c10_name_top_issue_always_witness :
    (pyStrip "John Smith resume body text" ≠ "") ∧
      ∃ l, checkSections "John Smith resume body text"
          [⟨"heading", "John Smith", none⟩] = .ok l ∧ nameTopIssue ∈ l :=
  ⟨by decide, c10_name_top_issue_always _ _ (by decide)
    ⟨⟨"heading", "John Smith", none⟩, by decide, by decide, by decide⟩⟩

/-- C7 counterexample: on whitespace-only (hence non-empty but blank)
resume text, `analyze_resume_structure` does not return an issue list at
all — the `ValueError` raised by `check_contact_info` propagates uncaught,
so the function raises rather than "never raises". -/
theorem c7_counterexample :
    analyzeResumeStructure " " [] =
      Except.error "resume_text must be a non-empty string" := rfl

/-- C7 amended: for every resume text with non-whitespace content and every
structure, `analyze_resume_structure` returns (without raising) the
concatenation of the four rule groups' issues, or exactly the single
positive entry when all four groups are silent; the result is never
empty.  (For the empty string it returns the invalid-text entry; for
whitespace-only non-empty text it raises, per the counterexample.) -/
theorem c7_amended_always_nonempty (text : String) (struct : List ContentElement)
    (ht : pyStrip text ≠ "") :
    ∃ ci si qi,
      checkContactInfo text = Except.ok ci ∧
      checkSections text struct = Except.ok si ∧
      checkContentQuality text struct = Except.ok qi ∧
      analyzeResumeStructure text struct =
        Except.ok (if (ci.2.2 ++ si ++ checkFormatting struct ++ qi).isEmpty
          then [noIssuesEntry] else ci.2.2 ++ si ++ checkFormatting struct ++ qi) ∧
      (if (ci.2.2 ++ si ++ checkFormatting struct ++ qi).isEmpty
          then [noIssuesEntry] else ci.2.2 ++ si ++ checkFormatting struct ++ qi) ≠ [] := by
  have hte : text ≠ "" := by
    intro h
    apply ht
    rw [h]
    rfl
  have h1 : ∃ ci, checkContactInfo text = Except.ok ci := by
    simp only [checkContactInfo, if_neg ht]
    exact ⟨_, rfl⟩
  have h2 : ∃ si, checkSections text struct = Except.ok si := by
    simp only [checkSections, if_neg ht]
    exact ⟨_, rfl⟩
  have h3 : ∃ qi, checkContentQuality text struct = Except.ok qi := by
    simp only [checkContentQuality, if_neg ht]
    exact ⟨_, rfl⟩
  obtain ⟨ci, h1⟩ := h1
  obtain ⟨si, h2⟩ := h2
  obtain ⟨qi, h3⟩ := h3
  refine ⟨ci, si, qi, h1, h2, h3, ?_, ?_⟩
  · simp only [analyzeResumeStructure, if_neg hte, h1, h2, h3]
  · split_ifs with h
    · simp
    · intro hx
      rw [hx] at h
      simp at h

/-- Witness for the amended C7 on concrete non-blank input. -/
theorem c7_amended_always_nonempty_witness :
    (pyStrip "John Smith developed resume advice" ≠ "") ∧
      ∃ ci si qi,
        checkContactInfo "John Smith developed resume advice" = Except.ok ci ∧
        checkSections "John Smith developed resume advice" [] = Except.ok si ∧
        checkContentQuality "John Smith developed resume advice" [] = Except.ok qi ∧
        analyzeResumeStructure "John Smith developed resume advice" [] =
          Except.ok (if (ci.2.2 ++ si ++ checkFormatting [] ++ qi).isEmpty
            then [noIssuesEntry] else ci.2.2 ++ si ++ checkFormatting [] ++ qi) ∧
        (if (ci.2.2 ++ si ++ checkFormatting [] ++ qi).isEmpty
            then [noIssuesEntry] else ci.2.2 ++ si ++ checkFormatting [] ++ qi) ≠ [] :=
  ⟨by decide, c7_amended_always_nonempty _ [] (by decide)⟩

/-- C5 counterexample: on the text `"proficient in zzzskill"` the secondary
pattern layer yields the token `"zzzskill"`, and `suggest_skills.extract_skills`
returns it, but the Score Aggregator's own extractor
(`ATSCalculator._extract_skills`) does not — it has no pattern layer, so
the claim fails for that entry point (here in fallback mode; the primary
branch likewise contains no pattern code). -/
theorem c5_counterexample :
    "zzzskill" ∈ patternTokens "proficient in zzzskill" ∧
      "zzzskill" ∈ (suggestExtractSkills
        ⟨fun _ => none, fun _ => [], fun _ _ => none, fun _ => [], fun _ => false⟩
        false "proficient in zzzskill").1 ∧
      "zzzskill" ∉ (atsExtractSkills
        ⟨fun _ => none, fun _ => [], fun _ _ => none, fun _ => [], fun _ => false⟩
        false "proficient in zzzskill").1 := by
  decide

/-- C5 amended: in `suggest_skills.extract_skills` (the extractor used by
the Skill Gap Analyzer) the secondary pattern layer runs on every
non-blank input regardless of the primary path's availability or outcome,
and all its cleaned tokens are in the returned set; the Score Aggregator's
`_extract_skills` has no pattern layer. -/
theorem c5_amended_pattern_layer_runs (o : NlpOracle) (flag : Bool) (text : String)
    (h1 : text ≠ "") (h2 : pyStrip text ≠ "") :
    patternTokens text ⊆ (suggestExtractSkills o flag text).1 := by
  simp only [suggestExtractSkills, if_neg h1, if_neg h2]
  intro s hs
  exact Finset.mem_union_right _ hs

/-- Witness for the amended C5 with the primary path available and
succeeding (the pattern tokens are still present). -/
theorem c5_amended_pattern_layer_runs_witness :
    ("proficient in zzzskill" ≠ "") ∧ (pyStrip "proficient in zzzskill" ≠ "") ∧
      patternTokens "proficient in zzzskill" ⊆ (suggestExtractSkills
        ⟨fun _ => some (["Python"], []), fun _ => [], fun _ _ => none, fun _ => [],
          fun _ => false⟩ true "proficient in zzzskill").1 :=
  ⟨by decide, by decide,
    c5_amended_pattern_layer_runs _ true _ (by decide) (by decide)⟩

/-- A string all of whose characters are fixed by lowercasing is fixed by
`toLowerS`. -/
lemma toLowerS_fix_of_chars {s : String} (h : ∀ c ∈ s.data, toLowerChar c = c) :
    toLowerS s = s := by
  cases s with
  | mk l =>
    simp only [toLowerS]
    congr 1
    calc l.map toLowerChar = l.map id := List.map_congr_left h
      _ = l := List.map_id l

/-- Lowercasing a string is idempotent. -/
lemma toLowerS_idem (s : String) : toLowerS (toLowerS s) = toLowerS s := by
  apply toLowerS_fix_of_chars
  intro c hc
  simp only [toLowerS, List.mem_map] at hc
  obtain ⟨y, _, hy⟩ := hc
  rw [← hy]
  exact toLowerChar_idem y

/-- Cleaned phrases are already lowercase. -/
lemma cleanPhrase_lower (s : String) : toLowerS (cleanPhrase s) = cleanPhrase s := by
  apply toLowerS_fix_of_chars
  intro c hc
  simp only [cleanPhrase, pyStrip] at hc
  have h1 := mem_of_mem_stripL hc
  simp only [List.mem_map] at h1
  obtain ⟨y, hy, hyc⟩ := h1
  by_cases hw : wordChar y || isWsChar y
  · rw [← hyc, if_pos hw]
    simp only [toLowerS, List.mem_map] at hy
    obtain ⟨z, _, hz⟩ := hy
    rw [← hz]
    exact toLowerChar_idem z
  · rw [← hyc, if_neg hw]
    rfl

/-- Every entry of the curated vocabulary is its own lowercase. -/
lemma commonSkills_lower : ∀ s ∈ COMMON_SKILLS, toLowerS s = s := by decide


/-- Pattern-layer tokens are lowercase (they are `clean_phrase` images). -/
lemma patternTokens_lower (text : String) :
    ∀ s ∈ patternTokens text, toLowerS s = s := by
  intro s hp
  simp only [patternTokens, List.mem_toFinset] at hp
  rcases List.mem_flatten.mp hp with ⟨piece, hpl, hppm⟩
  rcases List.mem_map.mp hpl with ⟨g, _, hg⟩
  rw [← hg] at hppm
  rcases List.mem_filterMap.mp hppm with ⟨x, _, hx⟩
  by_cases hxe : (stripL x).isEmpty = true
  · rw [if_pos hxe] at hx
    exact absurd hx (by simp)
  · rw [if_neg hxe] at hx
    rw [← Option.some_inj.mp hx]
    exact cleanPhrase_lower _

/-- Primary-path skills are lowercase. -/
lemma suggestPrimary_lower (o : NlpOracle) (text : String) :
    ∀ s ∈ (suggestPrimary o text).1, toLowerS s = s := by
  intro s hs
  unfold suggestPrimary at hs
  cases ha : o.annotateRes text with
  | some v =>
    obtain ⟨full, ngrams⟩ := v
    rw [ha] at hs
    have hs' : s ∈ ((full.map cleanPhrase).filter
        (fun t => t ≠ "" && decide (t.length ≤ 100)) ++
        (((ngrams.filter (fun m => (7 : ℚ)/10 < m.2)).map (fun m => cleanPhrase m.1)).filter
          (fun t => t ≠ "" && decide (t.length ≤ 100)))).toFinset := hs
    rcases List.mem_append.mp (List.mem_toFinset.mp hs') with hf | hn
    · obtain ⟨w, _, hw⟩ := List.mem_map.mp (List.mem_of_mem_filter hf)
      rw [← hw]
      exact cleanPhrase_lower w
    · obtain ⟨w, _, hw⟩ := List.mem_map.mp (List.mem_of_mem_filter hn)
      rw [← hw]
      exact cleanPhrase_lower w.1
  | none =>
    rw [ha] at hs
    simp at hs

/-- Fallback skills are lowercase. -/
lemma suggestFallbackSet_lower (o : NlpOracle) (text : String) :
    ∀ s ∈ suggestFallbackSet o text, toLowerS s = s := by
  intro s hs
  unfold suggestFallbackSet at hs
  rcases List.mem_append.mp (List.mem_toFinset.mp hs) with hf | hn
  · rcases List.mem_filterMap.mp hf with ⟨e, _, he⟩
    split_ifs at he with hc1
    have he' : (if (decide (cleanPhrase e.1 ≠ "") && decide ((cleanPhrase e.1).length ≤ 100)
        && decide (toLowerS (cleanPhrase e.1) ∈ COMMON_SKILLS)) = true
        then some (toLowerS (cleanPhrase e.1)) else none) = some s := he
    by_cases hc2 : (decide (cleanPhrase e.1 ≠ "") && decide ((cleanPhrase e.1).length ≤ 100)
        && decide (toLowerS (cleanPhrase e.1) ∈ COMMON_SKILLS)) = true
    · rw [if_pos hc2] at he'
      rw [← Option.some_inj.mp he']
      exact toLowerS_idem _
    · rw [if_neg hc2] at he'
      exact absurd he' (by simp)
  · exact commonSkills_lower s (List.mem_of_mem_filter hn)

/-- Every skill returned by `suggest_skills.extract_skills` is lowercase:
the primary path and the pattern layer apply `clean_phrase`, the fallback
adds explicitly lowercased entries or curated vocabulary members. -/
lemma suggestExtractSkills_lower (o : NlpOracle) (flag : Bool) (text : String) :
    ∀ s ∈ (suggestExtractSkills o flag text).1, toLowerS s = s := by
  intro s hs
  unfold suggestExtractSkills at hs
  split_ifs at hs with h1 h2 h3
  · simp at hs
  · simp at hs
  · have hs' : s ∈ (if (suggestPrimary o text).2 = true then (suggestPrimary o text).1
        else suggestFallbackSet o text) ∪ patternTokens text := hs
    rcases Finset.mem_union.mp hs' with hb | hp
    · by_cases hp2 : (suggestPrimary o text).2 = true
      · rw [if_pos hp2] at hb
        exact suggestPrimary_lower o text s hb
      · rw [if_neg hp2] at hb
        exact suggestFallbackSet_lower o text s hb
    · exact patternTokens_lower text s hp
  · have hs' : s ∈ suggestFallbackSet o text ∪ patternTokens text := hs
    rcases Finset.mem_union.mp hs' with hb | hp
    · exact suggestFallbackSet_lower o text s hb
    · exact patternTokens_lower text s hp

/-- The gap order is total. -/
lemma gapOrd_total (jd : String) : ∀ a b, gapOrd jd a b ∨ gapOrd jd b a := by
  intro a b
  rcases lt_trichotomy (gapImp jd a) (gapImp jd b) with h | h | h
  · exact Or.inr (Or.inl h)
  · rcases le_total (toLowerS a).data (toLowerS b).data with hl | hl
    · exact Or.inl (Or.inr ⟨h, hl⟩)
    · exact Or.inr (Or.inr ⟨h.symm, hl⟩)
  · exact Or.inl (Or.inl h)

/-- The gap order is transitive. -/
lemma gapOrd_trans (jd : String) :
    ∀ a b c, gapOrd jd a b → gapOrd jd b c → gapOrd jd a c := by
  intro a b c hab hbc
  rcases hab with h1 | ⟨h1, h1'⟩ <;> rcases hbc with h2 | ⟨h2, h2'⟩
  · exact Or.inl (by omega)
  · exact Or.inl (by omega)
  · exact Or.inl (by omega)
  · exact Or.inr ⟨h1.trans h2, le_trans h1' h2'⟩

/-- C4: `get_missing_skills` returns only curated-vocabulary members of
length above 2, at most 20 of them, the empty list on empty input, and the
output is sorted by descending occurrence count in the JD text with ties
broken by the lowercased skill in ascending lexicographic order
(`gapOrd`). -/
theorem c4_missing_skills_contract (o : NlpOracle) (flag : Bool) (jd resume : String) :
    (∀ s ∈ getMissingSkills o flag jd resume, s ∈ COMMON_SKILLS ∧ 2 < s.length) ∧
      (getMissingSkills o flag jd resume).length ≤ 20 ∧
      ((jd = "" ∨ resume = "") → getMissingSkills o flag jd resume = []) ∧
      (getMissingSkills o flag jd resume).Sorted (gapOrd jd) := by
  by_cases h : jd = "" ∨ resume = ""
  · have hz : getMissingSkills o flag jd resume = [] := by
      unfold getMissingSkills
      rw [if_pos h]
    rw [hz]
    exact ⟨by simp, by simp, fun _ => rfl, List.sorted_nil⟩
  · have hdef : getMissingSkills o flag jd resume =
        (List.insertionSort (gapOrd jd)
          ((((suggestExtractSkills o flag jd).1 \
             (suggestExtractSkills o (suggestExtractSkills o flag jd).2 resume).1).sort
              (· ≤ ·)).filter
            (fun s => decide (toLowerS s ∈ COMMON_SKILLS) && decide (2 < s.length)))).take
          20 := by
      unfold getMissingSkills
      rw [if_neg h]
    refine ⟨?_, ?_, fun hc => absurd hc h, ?_⟩
    · intro s hs
      rw [hdef] at hs
      have hs1 := List.take_subset _ _ hs
      have hs2 := (List.perm_insertionSort (gapOrd jd) _).mem_iff.mp hs1
      obtain ⟨hmem, hpred⟩ := List.mem_filter.mp hs2
      have hpred' := Bool.and_eq_true_iff.mp hpred
      have hlow : toLowerS s = s :=
        suggestExtractSkills_lower o flag jd s
          (Finset.mem_sdiff.mp ((Finset.mem_sort _).mp hmem)).1
      refine ⟨?_, of_decide_eq_true hpred'.2⟩
      have := of_decide_eq_true hpred'.1
      rwa [hlow] at this
    · rw [hdef]
      exact List.length_take_le 20 _
    · rw [hdef]
      haveI : IsTotal String (gapOrd jd) := ⟨gapOrd_total jd⟩
      haveI : IsTrans String (gapOrd jd) := ⟨gapOrd_trans jd⟩
      exact (List.sorted_insertionSort (gapOrd jd) _).sublist (List.take_sublist 20 _)

/-- Instantiation of C4 at a concrete oracle-free fallback run. -/
theorem c4_missing_skills_contract_witness :
    (∀ s ∈ getMissingSkills
        ⟨fun _ => none, fun _ => [], fun _ _ => none, fun _ => [], fun _ => false⟩
        false "we need python and sql and docker python python"
        "i know sql only but this is long enough",
      s ∈ COMMON_SKILLS ∧ 2 < s.length) ∧
      (getMissingSkills
        ⟨fun _ => none, fun _ => [], fun _ _ => none, fun _ => [], fun _ => false⟩
        false "we need python and sql and docker python python"
        "i know sql only but this is long enough").length ≤ 20 :=
  ⟨(c4_missing_skills_contract _ _ _ _).1, (c4_missing_skills_contract _ _ _ _).2.1⟩

/-- A leading-segment match survives extending the list on the right. -/
lemma leadEq_append (n l t : List Char) (h : leadEq n l = true) :
    leadEq n (l ++ t) = true := by
  induction n generalizing l with
  | nil => rfl
  | cons a as ih =>
    cases l with
    | nil => simp [leadEq] at h
    | cons b bs =>
      simp only [List.cons_append, leadEq, Bool.and_eq_true] at h ⊢
      exact ⟨h.1, ih bs h.2⟩

/-- The empty needle occurs in every list. -/
lemma subL_nil (l : List Char) : subL [] l = true := by
  cases l <;> simp [subL, leadEq]

/-- Substring containment survives extending the haystack on the right. -/
lemma subL_append (n h t : List Char) (hs : subL n h = true) :
    subL n (h ++ t) = true := by
  induction h with
  | nil =>
    have hn : n = [] := by simpa [subL, List.isEmpty_iff] using hs
    rw [hn, List.nil_append]
    exact subL_nil t
  | cons c rest ih =>
    simp only [List.cons_append, subL, Bool.or_eq_true] at hs ⊢
    rcases hs with h1 | h2
    · exact Or.inl (leadEq_append n (c :: rest) t h1)
    · exact Or.inr (ih h2)

/-- The fallback vocabulary scan never loses a skill when the text is
extended on the right. -/
lemma atsFallbackSkills_mono (text suffix : String) :
    atsFallbackSkills text ⊆ atsFallbackSkills (text ++ suffix) := by
  intro s hs
  unfold atsFallbackSkills at hs ⊢
  rw [List.mem_toFinset] at hs ⊢
  obtain ⟨hmem, hsub⟩ := List.mem_filter.mp hs
  refine List.mem_filter.mpr ⟨hmem, ?_⟩
  have hdata : (toLowerS (text ++ suffix)).data =
      (toLowerS text).data ++ (toLowerS suffix).data := by
    simp [toLowerS, String.data_append]
  simp only [subS, hdata]
  exact subL_append _ _ _ hsub

/-- Skill coverage is monotone in the resume skill set. -/
lemma skillCoverage_mono (p : JobProfile) {r1 r2 : Finset String} (h : r1 ⊆ r2) :
    skillCoverage p r1 ≤ skillCoverage p r2 := by
  unfold skillCoverage
  split_ifs with he
  · exact le_refl 0
  · have hc : (0 : ℚ) < p.jdSkills.card := by
      exact_mod_cast Finset.card_pos.mpr (Finset.nonempty_iff_ne_empty.mpr he)
    apply (div_le_div_iff_of_pos_right hc).mpr
    exact_mod_cast Finset.card_le_card
      (Finset.inter_subset_inter (le_refl _) h)

/-- C9 counterexample: appending the JD-detected skill phrase
`" python"` to a fixed resume text (profile, structure and oracle held
constant) lowers the final score from 48 to 28, because the TF-IDF
similarity sub-signal depends on the full text and drops; "does not
decrease the final score" fails even though the appended phrase is a JD
skill already covered. -/
theorem c9_counterexample :
    "python" ∈ JobProfile.jdSkills ⟨"python developer job", {"python"}, 0⟩ ∧
      (totalScore ⟨"python developer job", {"python"}, 0⟩
        ⟨fun _ => none, fun _ => [],
          fun _ r => if r = pyNormalize
            "John Smith experienced python developer with many skills here"
            then some 1 else some 0,
          fun _ => [], fun _ => false⟩
        false
        ("John Smith experienced python developer with many skills here" ++ " python")
        [⟨"heading", "John Smith", none⟩, ⟨"text", "john@example.com", none⟩]).1 <
      (totalScore ⟨"python developer job", {"python"}, 0⟩
        ⟨fun _ => none, fun _ => [],
          fun _ r => if r = pyNormalize
            "John Smith experienced python developer with many skills here"
            then some 1 else some 0,
          fun _ => [], fun _ => false⟩
        false
        "John Smith experienced python developer with many skills here"
        [⟨"heading", "John Smith", none⟩, ⟨"text", "john@example.com", none⟩]).1 := by
  with_unfolding_all decide

/-- C9 amended: with the extractor in fallback mode, appending anything to
the text handed to `_extract_skills` can only grow the extracted skill
set, so the skill-coverage fraction never decreases; the final score,
however, can decrease through the text-dependent similarity and
readability sub-signals (see the counterexample). -/
theorem c9_amended_coverage_monotone (p : JobProfile) (o : NlpOracle)
    (rn suffix : String) (h1 : pyStrip rn ≠ "") (h2 : pyStrip (rn ++ suffix) ≠ "") :
    skillCoverage p (atsExtractSkills o false rn).1 ≤
      skillCoverage p (atsExtractSkills o false (rn ++ suffix)).1 := by
  unfold atsExtractSkills
  rw [if_neg h1, if_neg h2]
  exact skillCoverage_mono p (atsFallbackSkills_mono rn suffix)

/-- Witness for the amended C9. -/
theorem c9_amended_coverage_monotone_witness :
    (pyStrip "resume mentions python here" ≠ "") ∧
      (pyStrip ("resume mentions python here" ++ " sql") ≠ "") ∧
      skillCoverage ⟨"python sql developer", {"python", "sql"}, 0⟩
        (atsExtractSkills
          ⟨fun _ => none, fun _ => [], fun _ _ => none, fun _ => [], fun _ => false⟩
          false "resume mentions python here").1 ≤
      skillCoverage ⟨"python sql developer", {"python", "sql"}, 0⟩
        (atsExtractSkills
          ⟨fun _ => none, fun _ => [], fun _ _ => none, fun _ => [], fun _ => false⟩
          false ("resume mentions python here" ++ " sql")).1 :=
  ⟨by decide, by decide,
    c9_amended_coverage_monotone _ _ _ _ (by decide) (by decide)⟩
